import Mathlib

/-!
# Shallow embedding of the `mute` telemetry client

This file embeds, as executable Lean definitions, the delivery-layer logic of
the `mute` repository: backend-endpoint rotation and the ingest POST loop
(`backend_client.py`), the HTTP retry worker (`backend_client.py`), device
registration (`backend_client.py`), the durable MQTT offline queue flush
(`mute.py`), the window-close emission logic (`main.py` / `mute.py`), the
watchdog check (`mute.py`), and the raw SPL conversion (`usb_reader.py`).
Network responses are modelled as oracles (functions from URL to response);
wall-clock times and dB values are rationals; machine floats in the source are
modelled as exact rationals, which is faithful for the comparisons involved.
Theorems after the definitions settle the specification claims.
-/

/-- `BackendClient._backend_candidates` (backend_client.py lines 104-108):
returns `[]` for an empty pool, otherwise `pool[i:] + pool[:i]` where `i` is
the (non-negative) preference index. Python's `pool[i:]` is `List.drop i` and
`pool[:i]` is `List.take i` for `i ≥ 0`. -/
def backendCandidates (pool : List String) (i : Nat) : List String :=
  if pool = [] then [] else pool.drop i ++ pool.take i

/-- One HTTP response as seen by the client: a status code, or a transport
exception (`requests.RequestException`). -/
inductive HttpResp where
  | status (code : Nat)
  | netErr
deriving DecidableEq

/-- Outcome of one `BackendClient._post` call: the boolean result, the list of
base URLs actually contacted (in order), and whether the request was placed on
the retry queue. -/
structure PostOutcome where
  success : Bool
  contacted : List String
  enqueued : Bool
deriving DecidableEq

/-- The candidate loop of `BackendClient._post` (backend_client.py lines
111-121): for each base URL, POST to `base ++ path`; a 2xx status returns
`True` at once, a 401/403 returns `False` at once, and any other status or a
transport exception logs and advances to the next candidate. Returns the early
return value (if any) together with the bases contacted. -/
def postAttempts (responses : String → HttpResp) (path : String) :
    List String → Option Bool × List String
  | [] => (none, [])
  | base :: rest =>
    match responses (base ++ path) with
    | .status c =>
      if 200 ≤ c ∧ c < 300 then (some true, [base])
      else if c = 401 ∨ c = 403 then (some false, [base])
      else
        let r := postAttempts responses path rest
        (r.1, base :: r.2)
    | .netErr =>
      let r := postAttempts responses path rest
      (r.1, base :: r.2)

/-- `BackendClient._post` (backend_client.py lines 110-124): run the candidate
loop over `_backend_candidates()`; if the loop falls through without an early
return and `enqueue_on_fail` is set, the request is put on the retry queue;
the call then returns `False`. -/
def post (responses : String → HttpResp) (pool : List String) (i : Nat)
    (path : String) (enqueueOnFail : Bool) : PostOutcome :=
  let r := postAttempts responses path (backendCandidates pool i)
  match r.1 with
  | some b => ⟨b, r.2, false⟩
  | none => ⟨false, r.2, enqueueOnFail⟩

/-- A response that makes `_post` advance to the next candidate: a transport
error, or a status that is neither 2xx nor 401/403. -/
def advances (r : HttpResp) : Prop :=
  match r with
  | .netErr => True
  | .status c => ¬(200 ≤ c ∧ c < 300) ∧ ¬(c = 401 ∨ c = 403)

instance (r : HttpResp) : Decidable (advances r) := by
  unfold advances; cases r <;> infer_instance

/-- C2: For every backend pool and in-range preference index, the candidate
order of a single send attempt is the pool rotated left by the index: it
equals `pool.rotate i`, its head is the preferred endpoint `pool[i]`, and
every endpoint of the pool appears in it. -/
theorem backendCandidates_eq_rotate (pool : List String) (i : Nat)
    (h : i < pool.length) :
    backendCandidates pool i = pool.rotate i ∧
    (backendCandidates pool i).head? = pool.get? i ∧
    ∀ e ∈ pool, e ∈ backendCandidates pool i := by
  have hne : pool ≠ [] := by
    intro hnil; rw [hnil] at h; simp at h
  have hcand : backendCandidates pool i = pool.drop i ++ pool.take i := by
    unfold backendCandidates; rw [if_neg hne]
  have hperm : (backendCandidates pool i).Perm pool := by
    rw [hcand]
    calc (pool.drop i ++ pool.take i).Perm (pool.take i ++ pool.drop i) :=
          List.perm_append_comm
      _ = pool := pool.take_append_drop i
  refine ⟨?_, ?_, ?_⟩
  · rw [hcand, List.rotate_eq_drop_append_take h.le]
  · rw [hcand]
    have hd : pool.drop i ≠ [] := by
      intro hnil
      have := List.length_drop i pool
      rw [hnil] at this
      simp at this
      omega
    rw [List.head?_append_of_ne_nil _ hd]
    cases hdrop : pool.drop i with
    | nil => exact absurd hdrop hd
    | cons a t =>
      have : pool.get? i = (pool.drop i).get? 0 := by
        simp [List.get?_eq_getElem?, List.getElem?_drop]
      rw [this, hdrop]
      rfl
  · intro e he
    exact hperm.mem_iff.mpr he

/-- Witness for C2 at the spec's concrete example: pool `[A, B, C]` with
preference index 1 yields candidate order `[B, C, A]`. -/
theorem backendCandidates_eq_rotate_witness :
    backendCandidates ["A", "B", "C"] 1 = ["A", "B", "C"].rotate 1 ∧
    backendCandidates ["A", "B", "C"] 1 = ["B", "C", "A"] := by
  refine ⟨(backendCandidates_eq_rotate ["A", "B", "C"] 1 (by decide)).1, by decide⟩

/-- C9: `_backend_candidates` is total and element-preserving for every
non-negative preference index: the result is always a permutation of the pool
(no endpoint duplicated or dropped, never empty when the pool is non-empty),
and for every index at or past the pool length the result is the pool
unrotated. -/
theorem backendCandidates_total_perm (pool : List String) (i : Nat) :
    (backendCandidates pool i).Perm pool ∧
    (pool.length ≤ i → backendCandidates pool i = pool) ∧
    (pool ≠ [] → backendCandidates pool i ≠ []) := by
  by_cases hne : pool = []
  · subst hne
    refine ⟨by simp [backendCandidates], by simp [backendCandidates], ?_⟩
    intro h; exact absurd rfl h
  · have hcand : backendCandidates pool i = pool.drop i ++ pool.take i := by
      unfold backendCandidates; rw [if_neg hne]
    have hperm : (backendCandidates pool i).Perm pool := by
      rw [hcand]
      calc (pool.drop i ++ pool.take i).Perm (pool.take i ++ pool.drop i) :=
            List.perm_append_comm
        _ = pool := pool.take_append_drop i
    refine ⟨hperm, ?_, ?_⟩
    · intro hle
      rw [hcand, List.drop_eq_nil_of_le hle, List.take_of_length_le hle]
      rfl
    · intro _ hnil
      have := hperm.length_eq
      rw [hnil] at this
      exact hne (List.eq_nil_of_length_eq_zero this.symm)

/-- Witness for C9 at a concrete out-of-range index: pool `[A, B, C]` with
preference index 7 yields the pool unrotated, a permutation of the pool. -/
theorem backendCandidates_total_perm_witness :
    (backendCandidates ["A", "B", "C"] 7).Perm ["A", "B", "C"] ∧
    backendCandidates ["A", "B", "C"] 7 = ["A", "B", "C"] ∧
    backendCandidates ["A", "B", "C"] 7 ≠ [] :=
  ⟨(backendCandidates_total_perm ["A", "B", "C"] 7).1,
   (backendCandidates_total_perm ["A", "B", "C"] 7).2.1 (by decide),
   (backendCandidates_total_perm ["A", "B", "C"] 7).2.2 (by decide)⟩

/-- If every base in `pre` yields an advancing response, the candidate loop
over `pre ++ l` contacts all of `pre` and then behaves as the loop over `l`. -/
theorem postAttempts_append_advances (responses : String → HttpResp)
    (path : String) (l : List String) (pre : List String)
    (hpre : ∀ b ∈ pre, advances (responses (b ++ path))) :
    postAttempts responses path (pre ++ l) =
      ((postAttempts responses path l).1,
        pre ++ (postAttempts responses path l).2) := by
  induction pre with
  | nil => simp
  | cons b t ih =>
    have hb := hpre b (by simp)
    have ht : ∀ x ∈ t, advances (responses (x ++ path)) := fun x hx =>
      hpre x (by simp [hx])
    cases hr : responses (b ++ path) with
    | netErr => simp [postAttempts, hr, ih ht]
    | status c =>
      rw [hr] at hb
      unfold advances at hb
      simp [postAttempts, hr, if_neg hb.1, if_neg hb.2, ih ht]

/-- C3: if a candidate endpoint responds 401 or 403 after any run of
candidates that merely advance the loop, `_post` returns failure immediately:
the contacted bases stop at that candidate (no later candidate of the rotation
is contacted) and nothing is enqueued, even when `enqueue_on_fail` is set. -/
theorem post_auth_short_circuit (responses : String → HttpResp)
    (pool : List String) (i : Nat) (path : String) (enqueueOnFail : Bool)
    (pre : List String) (cand : String) (rest : List String)
    (hsplit : backendCandidates pool i = pre ++ cand :: rest)
    (hpre : ∀ b ∈ pre, advances (responses (b ++ path)))
    (hauth : responses (cand ++ path) = .status 401 ∨
      responses (cand ++ path) = .status 403) :
    post responses pool i path enqueueOnFail = ⟨false, pre ++ [cand], false⟩ := by
  have hcand : postAttempts responses path (cand :: rest) = (some false, [cand]) := by
    rcases hauth with h | h <;> simp [postAttempts, h]
  unfold post
  rw [hsplit, postAttempts_append_advances responses path (cand :: rest) pre hpre,
    hcand]

/-- Response oracle for the C3 witness: endpoint `a` times out, endpoint `b`
returns 401, endpoint `c` would return 200 but must never be contacted. -/
def authCex : String → HttpResp := fun url =>
  if url = "a/api/ingest/realtime" then .netErr
  else if url = "b/api/ingest/realtime" then .status 401
  else .status 200

/-- Witness for C3: with pool `[a, b, c]`, preference index 0 and
`enqueue_on_fail = True`, a 401 from `b` (after a transport error from `a`)
makes the call fail with only `a` and `b` contacted and nothing enqueued. -/
theorem post_auth_short_circuit_witness :
    post authCex ["a", "b", "c"] 0 "/api/ingest/realtime" true =
      ⟨false, ["a", "b"], false⟩ :=
  post_auth_short_circuit authCex ["a", "b", "c"] 0 "/api/ingest/realtime" true
    ["a"] "b" ["c"] (by decide) (by decide) (by decide)

/-- An item on the in-memory HTTP retry queue: the `(path, payload, headers)`
tuple of `RetryQueue` (backend_client.py lines 24-43). -/
structure RItem where
  path : String
  payload : String
  headers : List (String × String)
deriving DecidableEq

/-- The mutable state of `RetryWorker` (backend_client.py lines 46-70): the
queue contents (head = oldest) and the current backoff delay in seconds
(initially 2). -/
structure WorkerState where
  queue : List RItem
  delay : Nat
deriving DecidableEq

/-- One iteration of the `RetryWorker.run` loop (backend_client.py lines
57-70). `sendOk` abstracts `self.client._post(path, payload, headers,
enqueue_on_fail=False)`. Empty queue: sleep 1 s and leave the state alone.
Successful send: reset the delay to 2 and continue without sleeping. Failed
send: push the same item to the tail, sleep the current delay, then double the
delay capped at 60. Returns the new state and the sleep performed (`some d`
models `time.sleep(d)`). -/
def workerStep (sendOk : RItem → Bool) (s : WorkerState) :
    WorkerState × Option Nat :=
  match s.queue with
  | [] => (s, some 1)
  | item :: rest =>
    if sendOk item then (⟨rest, 2⟩, none)
    else (⟨rest ++ [item], min (s.delay * 2) 60⟩, some s.delay)

/-- `n` consecutive iterations of the retry-worker loop, collecting the
sleeps performed in order. -/
def workerRun (sendOk : RItem → Bool) : Nat → WorkerState → WorkerState × List Nat
  | 0, s => (s, [])
  | n + 1, s =>
    let r := workerStep sendOk s
    let rr := workerRun sendOk n r.1
    (rr.1, r.2.toList ++ rr.2)

/-- C6: per-iteration contract of the HTTP retry worker. A failed send pushes
the same item unchanged to the tail, sleeps the current delay, and doubles the
delay capped at 60; a successful send resets the delay to 2 and continues with
no sleep; three consecutive failures from the base state sleep 2 s, 4 s, 8 s;
and after any success the next failure sleeps the base delay 2 s again. -/
theorem retryWorker_backoff :
    (∀ sendOk item rest d, sendOk item = false →
      workerStep sendOk ⟨item :: rest, d⟩ =
        (⟨rest ++ [item], min (d * 2) 60⟩, some d)) ∧
    (∀ sendOk item rest d, sendOk item = true →
      workerStep sendOk ⟨item :: rest, d⟩ = (⟨rest, 2⟩, none)) ∧
    (∀ item, (workerRun (fun _ => false) 3 ⟨[item], 2⟩).2 = [2, 4, 8]) ∧
    (∀ item rest d, (workerStep (fun _ => true) ⟨item :: rest, d⟩).1.delay = 2) ∧
    (∀ item rest, (workerStep (fun _ => false) ⟨item :: rest, 2⟩).2 = some 2) := by
  refine ⟨?_, ?_, ?_, ?_, ?_⟩
  · intro sendOk item rest d h
    simp [workerStep, h]
  · intro sendOk item rest d h
    simp [workerStep, h]
  · intro item
    simp [workerRun, workerStep]
  · intro item rest d
    simp [workerStep]
  · intro item rest
    simp [workerStep]

/-- Witness for C6 at a concrete item and queue: three failing iterations from
the base state sleep 2 s, 4 s and 8 s, and the other conjuncts instantiated at
that item. -/
theorem retryWorker_backoff_witness :
    workerStep (fun _ => false) ⟨[⟨"/api/ingest/realtime", "p", []⟩], 2⟩ =
      (⟨[⟨"/api/ingest/realtime", "p", []⟩], 4⟩, some 2) ∧
    (workerRun (fun _ => false) 3 ⟨[⟨"/api/ingest/realtime", "p", []⟩], 2⟩).2 =
      [2, 4, 8] ∧
    (workerStep (fun _ => true) ⟨[⟨"/api/ingest/realtime", "p", []⟩], 7⟩).1.delay
      = 2 := by
  refine ⟨?_, retryWorker_backoff.2.2.1 ⟨"/api/ingest/realtime", "p", []⟩,
    retryWorker_backoff.2.2.2.1 ⟨"/api/ingest/realtime", "p", []⟩ [] 7⟩
  have h := retryWorker_backoff.1 (fun _ => false)
    ⟨"/api/ingest/realtime", "p", []⟩ [] 2 rfl
  simpa using h

/-- A row of the `unsent_messages` table (mute.py lines 370-383): id, topic,
payload, message type (`realtime` or `threshold`) and creation time.
`created` is the UTC creation instant in seconds (the stored ISO timestamp
has whole-second precision). -/
structure QRow where
  rid : Nat
  topic : String
  payload : String
  mtype : String
  created : ℚ
deriving DecidableEq

/-- The per-type retention ceiling of `flush_queue` (mute.py line 408):
`timedelta(hours=1)` for `realtime` rows, `timedelta(hours=48)` for every
other type, in seconds. -/
def retentionLimit (mtype : String) : ℚ :=
  if mtype = "realtime" then 3600 else 172800

/-- Whether a row has outlived its retention ceiling at time `now`
(mute.py lines 407-409): `age = now - created_at`, expired iff
`age > limit` (strict). -/
def rowExpired (now : ℚ) (r : QRow) : Bool :=
  decide (now - r.created > retentionLimit r.mtype)

/-- Effect of one `flush_queue` call on the durable store: the rows published
(and deleted), the rows dropped as expired (deleted unsent), and the rows still
in the store afterwards, each in processing order. -/
structure FlushResult where
  published : List QRow
  dropped : List QRow
  remaining : List QRow
deriving DecidableEq

/-- `flush_queue` (mute.py lines 398-422), applied to the rows in ascending id
order (the `SELECT ... ORDER BY id ASC` result). An expired row is deleted
without being published and the scan continues; a non-expired row is
published — on broker success it is deleted and the scan continues, and on the
first publish failure the scan stops, leaving that row and all later rows in
the store. `pub topic payload` abstracts `client.publish(...).rc ==
MQTT_ERR_SUCCESS`. -/
def flushQueue (pub : String → String → Bool) (now : ℚ) :
    List QRow → FlushResult
  | [] => ⟨[], [], []⟩
  | r :: rest =>
    if rowExpired now r then
      let f := flushQueue pub now rest
      ⟨f.published, r :: f.dropped, f.remaining⟩
    else if pub r.topic r.payload then
      let f := flushQueue pub now rest
      ⟨r :: f.published, f.dropped, f.remaining⟩
    else ⟨[], [], r :: rest⟩

/-- C4: on every flush, published rows are exactly the non-expired ones and
dropped rows exactly the expired ones. Unconditionally, every published row
was within its retention ceiling and every dropped row beyond it; when the
broker accepts every publish, the flush publishes precisely the non-expired
rows, drops precisely the expired rows unsent, and empties the store. -/
theorem flushQueue_retention (pub : String → String → Bool) (now : ℚ)
    (rows : List QRow) :
    (∀ r ∈ (flushQueue pub now rows).published, rowExpired now r = false) ∧
    (∀ r ∈ (flushQueue pub now rows).dropped, rowExpired now r = true) ∧
    ((∀ r ∈ rows, pub r.topic r.payload = true) →
      flushQueue pub now rows =
        ⟨rows.filter (fun r => !rowExpired now r),
         rows.filter (fun r => rowExpired now r), []⟩) := by
  induction rows with
  | nil => exact ⟨by simp [flushQueue], by simp [flushQueue], by simp [flushQueue]⟩
  | cons r rest ih =>
    by_cases hexp : rowExpired now r = true
    · refine ⟨?_, ?_, ?_⟩
      · intro x hx
        rw [flushQueue, if_pos hexp] at hx
        exact ih.1 x hx
      · intro x hx
        rw [flushQueue, if_pos hexp] at hx
        rcases List.mem_cons.mp hx with h | h
        · rw [h]; exact hexp
        · exact ih.2.1 x h
      · intro hall
        have hrest : ∀ x ∈ rest, pub x.topic x.payload = true := fun x hx =>
          hall x (List.mem_cons_of_mem r hx)
        rw [flushQueue, if_pos hexp, ih.2.2 hrest]
        simp [List.filter_cons, hexp]
    · have hexp' : rowExpired now r = false := by
        cases h : rowExpired now r
        · rfl
        · exact absurd h hexp
      by_cases hpub : pub r.topic r.payload = true
      · refine ⟨?_, ?_, ?_⟩
        · intro x hx
          rw [flushQueue, if_neg hexp, if_pos hpub] at hx
          rcases List.mem_cons.mp hx with h | h
          · rw [h]; exact hexp'
          · exact ih.1 x h
        · intro x hx
          rw [flushQueue, if_neg hexp, if_pos hpub] at hx
          exact ih.2.1 x hx
        · intro hall
          have hrest : ∀ x ∈ rest, pub x.topic x.payload = true := fun x hx =>
            hall x (List.mem_cons_of_mem r hx)
          rw [flushQueue, if_neg hexp, if_pos hpub, ih.2.2 hrest]
          simp [List.filter_cons, hexp']
      · refine ⟨?_, ?_, ?_⟩
        · intro x hx
          rw [flushQueue, if_neg hexp, if_neg hpub] at hx
          simp at hx
        · intro x hx
          rw [flushQueue, if_neg hexp, if_neg hpub] at hx
          simp at hx
        · intro hall
          exact absurd (hall r (List.mem_cons_self r rest)) hpub

/-- The three concrete rows of the C4 witness, in ascending id order: a
realtime row aged 61 minutes, a threshold row aged 61 minutes, and a threshold
row aged 49 hours at `now = 1000000`. -/
def c4Rows : List QRow :=
  [⟨1, "t", "p1", "realtime", 996340⟩,
   ⟨2, "t", "p2", "threshold", 996340⟩,
   ⟨3, "t", "p3", "threshold", 823600⟩]

/-- Witness for C4 at the spec's three concrete rows (`now = 1000000`): a
realtime row aged 61 minutes is dropped unsent, a threshold row aged
61 minutes is published normally, and a threshold row aged 49 hours is
dropped unsent. -/
theorem flushQueue_retention_witness :
    (∀ r ∈ c4Rows,
      (fun _ _ => true : String → String → Bool) r.topic r.payload = true) ∧
    flushQueue (fun _ _ => true) 1000000 c4Rows =
      ⟨[⟨2, "t", "p2", "threshold", 996340⟩],
       [⟨1, "t", "p1", "realtime", 996340⟩, ⟨3, "t", "p3", "threshold", 823600⟩],
       []⟩ := by
  have e1 : rowExpired 1000000 ⟨1, "t", "p1", "realtime", 996340⟩ = true := by
    simp only [rowExpired, retentionLimit]
    norm_num
  have e2 : rowExpired 1000000 ⟨2, "t", "p2", "threshold", 996340⟩ = false := by
    simp only [rowExpired, retentionLimit, decide_eq_false_iff_not]
    rw [if_neg (by decide)]
    norm_num
  have e3 : rowExpired 1000000 ⟨3, "t", "p3", "threshold", 823600⟩ = true := by
    simp only [rowExpired, retentionLimit, decide_eq_true_eq]
    rw [if_neg (by decide)]
    norm_num
  refine ⟨fun r _ => rfl, ?_⟩
  have h := (flushQueue_retention (fun _ _ => true) 1000000 c4Rows).2.2
    (fun r _ => rfl)
  rw [h]
  simp [c4Rows, List.filter_cons, e1, e2, e3]

/-- C5: the flush scan stops at the first publish failure. If every row before
the failing one is within retention and accepted by the broker and the failing
row is within retention but rejected, the flush deletes exactly the rows
before the failure, drops nothing, and leaves the failing row and every later
row in the store; a subsequent flush with the broker still failing starts at
the failed row and leaves the store unchanged. -/
theorem flushQueue_stops_at_first_failure (pub : String → String → Bool)
    (now : ℚ) (pre post : List QRow) (f : QRow)
    (hpre : ∀ r ∈ pre, rowExpired now r = false ∧ pub r.topic r.payload = true)
    (hexp : rowExpired now f = false)
    (hfail : pub f.topic f.payload = false) :
    flushQueue pub now (pre ++ f :: post) = ⟨pre, [], f :: post⟩ ∧
    flushQueue pub now (f :: post) = ⟨[], [], f :: post⟩ := by
  have hstop : flushQueue pub now (f :: post) = ⟨[], [], f :: post⟩ := by
    rw [flushQueue, if_neg (by rw [hexp]; exact Bool.false_ne_true),
      if_neg (by rw [hfail]; exact Bool.false_ne_true)]
  refine ⟨?_, hstop⟩
  induction pre with
  | nil => simpa using hstop
  | cons r t ih =>
    have hr := hpre r (List.mem_cons_self r t)
    have ht : ∀ x ∈ t, rowExpired now x = false ∧ pub x.topic x.payload = true :=
      fun x hx => hpre x (List.mem_cons_of_mem r hx)
    rw [List.cons_append, flushQueue,
      if_neg (by rw [hr.1]; exact Bool.false_ne_true), if_pos hr.2, ih ht]

/-- Witness for C5 at the spec's scenario: three fresh queued rows where the
broker rejects exactly the second — the flush deletes the first, stops at the
second, leaves the second and third queued, and the next flush resumes (and
stalls) at the second. -/
theorem flushQueue_stops_at_first_failure_witness :
    flushQueue (fun t _ => !(t = "t2")) 1000
        [⟨1, "t1", "p1", "realtime", 900⟩, ⟨2, "t2", "p2", "realtime", 900⟩,
         ⟨3, "t3", "p3", "threshold", 900⟩] =
      ⟨[⟨1, "t1", "p1", "realtime", 900⟩], [],
       [⟨2, "t2", "p2", "realtime", 900⟩, ⟨3, "t3", "p3", "threshold", 900⟩]⟩ ∧
    flushQueue (fun t _ => !(t = "t2")) 1000
        [⟨2, "t2", "p2", "realtime", 900⟩, ⟨3, "t3", "p3", "threshold", 900⟩] =
      ⟨[], [], [⟨2, "t2", "p2", "realtime", 900⟩,
                ⟨3, "t3", "p3", "threshold", 900⟩]⟩ := by
  have hfresh : ∀ m : String, rowExpired 1000 ⟨2, "t2", "p2", m, 900⟩ = false := by
    intro m
    simp only [rowExpired, retentionLimit]
    split <;> norm_num
  refine flushQueue_stops_at_first_failure (fun t _ => !(t = "t2")) 1000
    [⟨1, "t1", "p1", "realtime", 900⟩] [⟨3, "t3", "p3", "threshold", 900⟩]
    ⟨2, "t2", "p2", "realtime", 900⟩ ?_ (by
      have := hfresh "realtime"
      simpa only [rowExpired] using this) (by decide)
  intro r hr
  rw [List.mem_singleton] at hr
  subst hr
  constructor
  · simp only [rowExpired, retentionLimit]
    norm_num
  · decide

/-- Body of a registration HTTP response as the client parses it
(backend_client.py lines 144-148): a JSON object with optional `device_id`
and `device_token` fields, or text that does not parse as JSON. (A 200/201
body parsing as non-object JSON raises an uncaught `AttributeError` in the
source and is outside this model.) -/
inductive RegBody where
  | obj (did tok : Option String)
  | txt
deriving DecidableEq

/-- A registration response: a status code with a body, or a transport
exception. -/
inductive RegResp where
  | resp (code : Nat) (body : RegBody)
  | netErr
deriving DecidableEq

/-- One registration attempt against a single URL (backend_client.py lines
141-161): a transport exception logs and moves on (`none`); a status of 200
or 201 with a JSON-object body immediately returns that object's `device_id`
and `device_token` fields, whether or not they are present; a 200/201
response whose body is not JSON logs and moves on; any other status logs and
moves on. -/
def regAttempt (r : RegResp) : Option (Option String × Option String) :=
  match r with
  | .netErr => none
  | .resp c b =>
    if c = 200 ∨ c = 201 then
      match b with
      | .obj did tok => some (did, tok)
      | .txt => none
    else none

/-- The two registration paths tried, in order, for one backend candidate
(backend_client.py line 140). -/
def regCandidate (responses : String → RegResp) (base : String) :
    Option (Option String × Option String) :=
  match regAttempt (responses (base ++ "/api/register")) with
  | some r => some r
  | none => regAttempt (responses (base ++ "/api/client/register"))

/-- The candidate loop of `register_device` over a list of base URLs. -/
def registerDeviceGo (responses : String → RegResp) :
    List String → Option String × Option String
  | [] => (none, none)
  | b :: rest =>
    match regCandidate responses b with
    | some r => r
    | none => registerDeviceGo responses rest

/-- Embedding of `BackendClient.register_device` (backend_client.py lines
126-162): walk the backend candidates in rotation order, trying both
registration paths per candidate; return the first accepted attempt's parsed
pair, or `(none, none)` when every attempt falls through. -/
def registerDevice (responses : String → RegResp) (pool : List String)
    (i : Nat) : Option String × Option String :=
  registerDeviceGo responses (backendCandidates pool i)

/-- Registration oracle for the C8 counterexample: candidate `A` answers the
first path with 200 and a JSON object containing neither field; candidate `B`
would answer with 200 and both fields. -/
def regCex : String → RegResp := fun url =>
  if url = "A/api/register" then .resp 200 (.obj none none)
  else if url = "B/api/register" then
    .resp 200 (.obj (some "dev-1") (some "tok-1"))
  else .netErr

/-- Counterexample to C8: the code accepts the first 200 response whose body
is a JSON object even though it contains neither `device_id` nor
`device_token`, returning `(none, none)` at once instead of moving on to
candidate `B`, whose response carries both fields. -/
theorem registerDevice_no_field_check :
    registerDevice regCex ["A", "B"] 0 = (none, none) ∧
    regAttempt (regCex ("B" ++ "/api/register")) =
      some (some "dev-1", some "tok-1") := by
  decide

/-- If every candidate in `pre` falls through, the register loop over
`pre ++ l` behaves as the loop over `l`. -/
theorem registerDeviceGo_append_none (responses : String → RegResp)
    (l : List String) (pre : List String)
    (hpre : ∀ x ∈ pre, regCandidate responses x = none) :
    registerDeviceGo responses (pre ++ l) = registerDeviceGo responses l := by
  induction pre with
  | nil => simp
  | cons b t ih =>
    have hb := hpre b (by simp)
    have ht : ∀ x ∈ t, regCandidate responses x = none := fun x hx =>
      hpre x (by simp [hx])
    simp [registerDeviceGo, hb, ih ht]

/-- C8 amended: `register_device` walks the attempts in candidate-rotation
order, two paths per candidate in order; an attempt is accepted exactly when
its status is 200 or 201 and its body is a JSON object, in which case the
call returns that object's `device_id` and `device_token` fields immediately
— present or not; every other attempt outcome moves on, and only when every
attempt of every candidate falls through does the call return
`(none, none)`. -/
theorem registerDevice_first_accepted (responses : String → RegResp)
    (pool : List String) (i : Nat) (pre : List String) (b : String)
    (rest : List String) (r : Option String × Option String)
    (hsplit : backendCandidates pool i = pre ++ b :: rest)
    (hpre : ∀ x ∈ pre, regCandidate responses x = none)
    (hb : regCandidate responses b = some r) :
    registerDevice responses pool i = r ∧
    (∀ l, (∀ x ∈ l, regCandidate responses x = none) →
      registerDeviceGo responses l = (none, none)) ∧
    (∀ base, regAttempt (responses (base ++ "/api/register")) = none →
      regCandidate responses base =
        regAttempt (responses (base ++ "/api/client/register"))) ∧
    (∀ c did tok, regAttempt (.resp c (.obj did tok)) =
      if c = 200 ∨ c = 201 then some (did, tok) else none) := by
  refine ⟨?_, ?_, ?_, fun c did tok => rfl⟩
  · unfold registerDevice
    rw [hsplit, registerDeviceGo_append_none responses (b :: rest) pre hpre]
    simp [registerDeviceGo, hb]
  · intro l hl
    induction l with
    | nil => rfl
    | cons x t ih =>
      have hx := hl x (by simp)
      have ht : ∀ y ∈ t, regCandidate responses y = none := fun y hy =>
        hl y (by simp [hy])
      simp [registerDeviceGo, hx, ih ht]
  · intro base hnone
    unfold regCandidate
    rw [hnone]

/-- Registration oracle for the C8 amended witness: candidate `X` times out
on the first path and gets a 500 on the second; candidate `Y` answers the
first path with 201 and both fields. -/
def regWitnessResp : String → RegResp := fun url =>
  if url = "X/api/register" then .netErr
  else if url = "X/api/client/register" then .resp 500 .txt
  else if url = "Y/api/register" then .resp 201 (.obj (some "d") (some "t"))
  else .netErr

/-- Witness for the amended C8: with candidate `X` failing both paths and
candidate `Y` answering 201 with both fields, registration returns the pair
from `Y`. -/
theorem registerDevice_first_accepted_witness :
    registerDevice regWitnessResp ["X", "Y"] 0 = (some "d", some "t") :=
  (registerDevice_first_accepted regWitnessResp ["X", "Y"] 0 ["X"] "Y" []
    (some "d", some "t") (by decide) (by decide) (by decide)).1

/-- The module-level mutable state of mute.py read or written around the
watchdog: `LAST_RT_TS` (line 620, initialised to the process start time),
`MQTT_CONNECTED` (line 446) and `FIRST_RT_SENT` (line 447, set by the first
successful realtime publish). -/
structure MuteState where
  lastRtTs : ℚ
  mqttConnected : Bool
  firstRtSent : Bool
deriving DecidableEq

/-- The restart condition evaluated by each 5-second iteration of
`watchdog_loop` (mute.py line 732): `time.time() - LAST_RT_TS > 10`. The
source reads neither `MQTT_CONNECTED` nor `FIRST_RT_SENT` here, and the
threshold is the fixed constant 10. -/
def watchdogFires (now : ℚ) (s : MuteState) : Bool :=
  decide (now - s.lastRtTs > 10)

/-- Result of `send_or_queue` (mute.py lines 551-574): the message is
published when the transport is connected and the broker acknowledges,
otherwise it is queued to the durable store. -/
inductive SendResult where
  | published
  | queued
deriving DecidableEq

/-- The branch structure of `send_or_queue` (mute.py lines 551-574). -/
def sendOrQueue (connected pubOk : Bool) : SendResult :=
  if connected && pubOk then .published else .queued

/-- The realtime branch of a window close in `noise_monitor_loop` (mute.py
lines 693-695): emit the realtime payload through `send_or_queue` (which, on
the non-debug path, records the first successful publish in `FIRST_RT_SENT`),
then set `LAST_RT_TS := now` unconditionally — also when the payload was only
queued. -/
def realtimeWindowStep (connected pubOk : Bool) (now : ℚ) (s : MuteState) :
    MuteState :=
  let s1 := if sendOrQueue connected pubOk = .published
    then { s with firstRtSent := true } else s
  { s1 with lastRtTs := now }

/-- Counterexample to C1: at a state where no realtime measurement has ever
been successfully sent (`FIRST_RT_SENT = false`) and the transport is
disconnected (`MQTT_CONNECTED = false`), an elapsed gap of 100 s still makes
the watchdog condition fire — the code restarts regardless of both guards the
claim asserts. -/
theorem watchdogFires_despite_guards :
    watchdogFires 100 ⟨0, false, false⟩ = true := by
  simp only [watchdogFires, decide_eq_true_eq]
  norm_num

/-- C1 amended: every watchdog check fires a restart exactly when
`now - LAST_RT_TS > 10` — a fixed 10-second threshold, not
`max(10 s, 2 × window_duration + 5 s)` — independently of `MQTT_CONNECTED`
and `FIRST_RT_SENT`; and the window close refreshes `LAST_RT_TS` on every
realtime emission, whether the payload was published or only queued. -/
theorem watchdogFires_iff_fixed_gap :
    (∀ (now : ℚ) (s : MuteState),
      watchdogFires now s = true ↔ now - s.lastRtTs > 10) ∧
    (∀ (now last : ℚ) (b1 b2 b1' b2' : Bool),
      watchdogFires now ⟨last, b1, b2⟩ = watchdogFires now ⟨last, b1', b2'⟩) ∧
    (∀ (connected pubOk : Bool) (now : ℚ) (s : MuteState),
      (realtimeWindowStep connected pubOk now s).lastRtTs = now) := by
  refine ⟨?_, ?_, ?_⟩
  · intro now s
    simp [watchdogFires]
  · intro now last b1 b2 b1' b2'
    rfl
  · intro connected pubOk now s
    rfl

/-- The constant `MINIMUM_NOISE_LEVEL = 80.0` (backend_client.py line 16);
mute.py line 305 reads the same default 80 into `MIN_NOISE`. -/
def MINIMUM_NOISE_LEVEL : ℚ := 80

/-- What one window close emits (main.py lines 192-205; mute.py lines
679-711): the realtime measurement always carries the window peak, and a
threshold measurement exists iff `current_peak >= MINIMUM_NOISE_LEVEL`,
carrying the same peak. -/
structure WindowEmission where
  realtimePeak : ℚ
  thresholdPeak : Option ℚ
deriving DecidableEq

/-- The emission decision at a window close, as a function of the window's
accumulated `current_peak`. -/
def emitWindow (currentPeak : ℚ) : WindowEmission :=
  ⟨currentPeak,
    if MINIMUM_NOISE_LEVEL ≤ currentPeak then some currentPeak else none⟩

/-- C7: every closed window emits a realtime measurement carrying the window
peak, whatever the peak; a threshold measurement is emitted iff the peak is at
least `MINIMUM_NOISE_LEVEL = 80.0` and carries that same peak; in particular a
peak of 79.9 emits no threshold event and a peak of 80.0 emits one with peak
value 80.0. -/
theorem emitWindow_threshold_gating :
    (∀ p : ℚ, (emitWindow p).realtimePeak = p) ∧
    (∀ p : ℚ,
      ((emitWindow p).thresholdPeak = some p ↔ MINIMUM_NOISE_LEVEL ≤ p)) ∧
    (∀ p q : ℚ, (emitWindow p).thresholdPeak = some q → q = p) ∧
    (emitWindow (799 / 10)).thresholdPeak = none ∧
    (emitWindow 80).thresholdPeak = some 80 := by
  have hgate : ∀ p : ℚ,
      ((emitWindow p).thresholdPeak = some p ↔ MINIMUM_NOISE_LEVEL ≤ p) := by
    intro p
    unfold emitWindow
    by_cases h : MINIMUM_NOISE_LEVEL ≤ p
    · simp [h]
    · simp [h]
  refine ⟨fun p => rfl, hgate, ?_, ?_, ?_⟩
  · intro p q h
    by_cases hq : MINIMUM_NOISE_LEVEL ≤ p
    · have hp : (emitWindow p).thresholdPeak = some p := (hgate p).mpr hq
      rw [hp] at h
      exact (Option.some.inj h).symm
    · have hp : (emitWindow p).thresholdPeak = none := by
        unfold emitWindow
        simp [hq]
      rw [hp] at h
      exact absurd h (by simp)
  · have hq : ¬(MINIMUM_NOISE_LEVEL ≤ (799 / 10 : ℚ)) := by
      norm_num [MINIMUM_NOISE_LEVEL]
    unfold emitWindow
    simp [hq]
  · exact (hgate 80).mpr (by norm_num [MINIMUM_NOISE_LEVEL])

/-- Witness for C7 at peak 85: the threshold event is emitted and carries the
same value 85. -/
theorem emitWindow_threshold_gating_witness :
    (emitWindow 85).thresholdPeak = some 85 ∧ (85 : ℚ) = 85 :=
  ⟨(emitWindow_threshold_gating.2.1 85).mpr (by norm_num [MINIMUM_NOISE_LEVEL]),
   emitWindow_threshold_gating.2.2.1 85 85
     ((emitWindow_threshold_gating.2.1 85).mpr
       (by norm_num [MINIMUM_NOISE_LEVEL]))⟩

/-- Python's `round(x, 1)`: rounding to one decimal place. Every value that
reaches it in `convert_raw_to_spl` is an exact multiple of 1/10, on which
rounding is the identity whatever the tie-breaking rule, so Mathlib's `round`
is a faithful model here. -/
def round1 (x : ℚ) : ℚ := (round (x * 10) : ℤ) / 10

/-- Embedding of `convert_raw_to_spl` (usb_reader.py lines 16-24): an input of
fewer than two bytes yields 0.0; otherwise
`(raw[0] + ((raw[1] & 3) * 256)) * 0.1 + 30` rounded to one decimal. Bytes
are naturals below 256, and `& 3` is `% 4`. -/
def convert_raw_to_spl (raw : List Nat) : ℚ :=
  match raw with
  | b0 :: b1 :: _ =>
    round1 (((b0 : ℚ) + ((b1 % 4 : Nat) : ℚ) * 256) * (1 / 10) + 30)
  | _ => 0

/-- Rounding to one decimal fixes every natural multiple of one tenth. -/
theorem round1_natDiv10 (m : ℕ) : round1 ((m : ℚ) / 10) = (m : ℚ) / 10 := by
  unfold round1
  rw [div_mul_cancel₀ _ (by norm_num : (10 : ℚ) ≠ 0), round_natCast]
  push_cast
  ring

/-- C10: `convert_raw_to_spl` is total on byte strings: an input of fewer than
two bytes yields 0.0, and for at least two bytes (each below 256) the result
lies between 30.0 and 132.3 inclusive — only the low two bits of the second
byte contribute, and the first byte is at most 255. -/
theorem convert_raw_to_spl_bounds (raw : List Nat)
    (hbytes : ∀ b ∈ raw, b < 256) :
    (raw.length < 2 → convert_raw_to_spl raw = 0) ∧
    (2 ≤ raw.length →
      30 ≤ convert_raw_to_spl raw ∧ convert_raw_to_spl raw ≤ 1323 / 10) := by
  match raw with
  | [] => exact ⟨fun _ => rfl, by intro h; simp at h⟩
  | [b0] => exact ⟨fun _ => rfl, by intro h; simp at h⟩
  | b0 :: b1 :: rest =>
    refine ⟨by intro h; simp at h; omega, fun _ => ?_⟩
    have hb0 : b0 < 256 := hbytes b0 (by simp)
    have hm : 300 ≤ b0 + b1 % 4 * 256 + 300 ∧
        b0 + b1 % 4 * 256 + 300 ≤ 1323 := by
      have hb1 : b1 % 4 < 4 := Nat.mod_lt _ (by norm_num)
      omega
    have hval : convert_raw_to_spl (b0 :: b1 :: rest) =
        ((b0 + b1 % 4 * 256 + 300 : ℕ) : ℚ) / 10 := by
      show round1 (((b0 : ℚ) + ((b1 % 4 : Nat) : ℚ) * 256) * (1 / 10) + 30) = _
      have harith : ((b0 : ℚ) + ((b1 % 4 : Nat) : ℚ) * 256) * (1 / 10) + 30 =
          ((b0 + b1 % 4 * 256 + 300 : ℕ) : ℚ) / 10 := by
        push_cast
        ring
      rw [harith, round1_natDiv10]
    have h300 : (300 : ℚ) ≤ ((b0 + b1 % 4 * 256 + 300 : ℕ) : ℚ) := by
      exact_mod_cast hm.1
    have h1323 : ((b0 + b1 % 4 * 256 + 300 : ℕ) : ℚ) ≤ 1323 := by
      exact_mod_cast hm.2
    rw [hval]
    constructor
    · linarith
    · linarith

/-- Witness for C10: the all-ones raw reading `[255, 255]` stays within the
bound (it attains the maximum 132.3), and a one-byte reading yields 0.0. -/
theorem convert_raw_to_spl_bounds_witness :
    (∀ b ∈ [255, 255], b < 256) ∧
    (30 ≤ convert_raw_to_spl [255, 255] ∧
      convert_raw_to_spl [255, 255] ≤ 1323 / 10) ∧
    convert_raw_to_spl [7] = 0 :=
  ⟨by decide,
   (convert_raw_to_spl_bounds [255, 255] (by decide)).2 (by decide),
   (convert_raw_to_spl_bounds [7] (by decide)).1 (by decide)⟩
